import Mathlib

/-!
Verification of the `errors` package of sudo-suhas/xgo.

The embedding models the package's central data type `Error` (operation,
kind, internal text, user message, data payload, wrapped cause, optional
JSON override), the functional-option constructor `E`, the field-promotion
algorithm `promoteFields`, string rendering `Error.Error`, the
chain-walking accessors (`WhatKind`, `StatusCode`, `UserMsg`), the
projections (`JSON`, `Details`, `Ops`) and the template matcher
(`Match`/`Diff`).

Modelling conventions:
  * Go strings are Lean `String`s; the `int` HTTP status is `Int`.
  * The `Data interface{}` payload is modelled as an integer payload
    (`Option Int`); `reflect.DeepEqual` on payloads is then equality.
  * The `ToJSON JSONFunc` field holds a function value; the model stores
    an opaque handle (`Option Nat`) and interprets handles through an
    explicit environment where `JSON()` is modelled, so that moving the
    field around (promotion) and the presence checks (`== nil`) are exact.
  * A Go `error` interface value is `Option GoError`: `none` is the nil
    interface; `GoError.gerr` is a `*Error` of this package and
    `GoError.foreign` is any other error, carrying its `Error()` string
    and optional `GetKind`, `StatusCode` and `Unwrap` capabilities.
-/

namespace Xgo

/-- `Kind` is the tuple of error code and HTTP status code
(kind.go). Equality is structural, as in Go. -/
structure Kind where
  code : String
  status : Int
deriving DecidableEq, Repr

/-- The zero `Kind`, meaning unknown/unclassified. -/
def Unknown : Kind := ⟨"", 0⟩

def InvalidInput : Kind := ⟨"INVALID_INPUT", 400⟩
def Unauthenticated : Kind := ⟨"UNAUTHENTICATED", 401⟩
def PermissionDenied : Kind := ⟨"PERMISSION_DENIED", 403⟩
def NotFound : Kind := ⟨"NOT_FOUND", 404⟩
def Conflict : Kind := ⟨"CONFLICT", 409⟩
def FailedPrecondition : Kind := ⟨"FAILED_PRECONDITION", 412⟩
def ResourceExhausted : Kind := ⟨"RESOURCE_EXHAUSTED", 429⟩
def Internal : Kind := ⟨"INTERNAL", 500⟩
def Canceled : Kind := ⟨"CANCELED", 500⟩
def Unimplemented : Kind := ⟨"UNIMPLEMENTED", 501⟩
def Unavailable : Kind := ⟨"UNAVAILABLE", 503⟩
def DeadlineExceeded : Kind := ⟨"DEADLINE_EXCEEDED", 503⟩

/-- `strings.Split(s, "_")` on the character list (the separator is a
single character, so splitting is char-by-char). -/
def splitUnderscore : List Char → List (List Char)
  | [] => [[]]
  | c :: rest =>
    match splitUnderscore rest with
    | [] => [[]]
    | w :: ws => if c = '_' then [] :: w :: ws else (c :: w) :: ws

/-- `strings.ToLower` on one character (ASCII range, which covers every
Kind code in the package). -/
def lowerChar (c : Char) : Char :=
  if 65 ≤ c.toNat ∧ c.toNat ≤ 90 then Char.ofNat (c.toNat + 32) else c

/-- `Kind.String` (kind.go): special case for Unknown and Internal,
otherwise lower-case the code with underscores replaced by spaces
(`strings.ToLower(strings.Join(strings.Split(k.Code, "_"), " "))`). -/
def Kind.string (k : Kind) : String :=
  if k = Unknown then "unknown error"
  else if k = Internal then "internal error"
  else ⟨(List.intercalate [' '] (splitUnderscore k.code.data)).map lowerChar⟩

/-- The scalar fields of the `Error` struct (err.go): everything except
the wrapped cause `Err`.  `Data` is an integer payload; `ToJSON` is an
opaque handle interpreted by an environment where `JSON()` is modelled. -/
structure EData where
  op : String := ""
  kind : Kind := Unknown
  text : String := ""
  userMsg : String := ""
  data : Option Int := none
  toJSON : Option Nat := none
deriving DecidableEq, Repr

/-- A non-nil Go `error` value: a `*Error` of this package (scalar
fields plus optional cause) or a foreign error.  A foreign error carries
its `Error()` string and, optionally, `GetKind`, `StatusCode` and
`Unwrap` capabilities (each `none` when the type does not implement the
corresponding interface, or when `Unwrap` yields nil). -/
inductive GoError where
  | gerr (d : EData) (cause : Option GoError)
  | foreign (msg : String) (fkind : Option Kind) (fstatus : Option Int)
      (wrapped : Option GoError)
deriving Repr

/-- Decidable equality for `GoError` (the nested `Option` recursion rules
out `deriving DecidableEq`). -/
def GoError.decEq : (a b : GoError) → Decidable (a = b)
  | .gerr d c, .gerr d2 c2 =>
    if h1 : d = d2 then
      match c, c2 with
      | none, none => isTrue (by rw [h1])
      | some x, some y =>
        match GoError.decEq x y with
        | isTrue h2 => isTrue (by rw [h1, h2])
        | isFalse h2 => isFalse (by simp [h1, h2])
      | none, some _ => isFalse (by simp [h1])
      | some _, none => isFalse (by simp [h1])
    else isFalse (by simp [h1])
  | .gerr _ _, .foreign _ _ _ _ => isFalse (by simp)
  | .foreign _ _ _ _, .gerr _ _ => isFalse (by simp)
  | .foreign m k s w, .foreign m2 k2 s2 w2 =>
    if h1 : m = m2 then
      if h2 : k = k2 then
        if h3 : s = s2 then
          match w, w2 with
          | none, none => isTrue (by rw [h1, h2, h3])
          | some x, some y =>
            match GoError.decEq x y with
            | isTrue h4 => isTrue (by rw [h1, h2, h3, h4])
            | isFalse h4 => isFalse (by simp [h1, h2, h3, h4])
          | none, some _ => isFalse (by simp [h1, h2, h3])
          | some _, none => isFalse (by simp [h1, h2, h3])
        else isFalse (by simp [h3])
      else isFalse (by simp [h2])
    else isFalse (by simp [h1])

instance : DecidableEq GoError := GoError.decEq

/-- The `*Error` under construction inside `E`: scalar fields and the
`Err` field (a Go `error`, possibly nil). -/
abbrev XError := EData × Option GoError

/-- `return &e` at the end of `E`: viewing the built struct as a Go
`error` value. -/
def XError.toErr (e : XError) : GoError := .gerr e.1 e.2

/-- A constructor option (option.go `Option` / `OptionFunc`). -/
abbrev EOption := XError → XError

/-- `WithOp` (option.go). -/
def WithOp (op : String) : EOption := fun e => ({ e.1 with op := op }, e.2)

/-- `WithUserMsg` (option.go). -/
def WithUserMsg (msg : String) : EOption :=
  fun e => ({ e.1 with userMsg := msg }, e.2)

/-- `WithText` (option.go). -/
def WithText (text : String) : EOption :=
  fun e => ({ e.1 with text := text }, e.2)

/-- Split a character list at every occurrence of the verb `%d`. -/
def splitPercentD : List Char → List (List Char)
  | [] => [[]]
  | '%' :: 'd' :: rest => [] :: splitPercentD rest
  | c :: rest =>
    match splitPercentD rest with
    | [] => [[]]
    | w :: ws => (c :: w) :: ws

/-- `fmt.Sprintf` restricted to the forms used in this package: a format
string whose verbs are all `%d`, applied to integer arguments.
Successive parts of the format are interleaved with the rendered
arguments; a missing argument renders as Go's `%!d(MISSING)`. -/
def sprintfInts : List String → List Int → String
  | [], _ => ""
  | [p], _ => p
  | p :: ps, [] => p ++ "%!d(MISSING)" ++ sprintfInts ps []
  | p :: ps, a :: as => p ++ toString a ++ sprintfInts ps as

/-- `WithTextf` (option.go): `WithText(fmt.Sprintf(format, args...))`. -/
def WithTextf (format : String) (args : List Int) : EOption :=
  WithText (sprintfInts ((splitPercentD format.data).map String.mk) args)

/-- `WithErr` (option.go).  In Go the option stores a defensive copy
when the argument is a `*Error`; in this pure value model the copy is
implicit (the pointer-level model below makes it explicit). -/
def WithErr (err : Option GoError) : EOption := fun e => (e.1, err)

/-- `WithData` (option.go). -/
def WithData (data : Int) : EOption :=
  fun e => ({ e.1 with data := some data }, e.2)

/-- `WithToJSON` (option.go): attaches a JSON override (a handle here). -/
def WithToJSON (f : Nat) : EOption :=
  fun e => ({ e.1 with toJSON := some f }, e.2)

/-- `Kind.Apply` (kind.go): a Kind passed directly as an option. -/
def Kind.apply (k : Kind) : EOption := fun e => ({ e.1 with kind := k }, e.2)

/-- Step 1 of `Error.promoteFields` (err.go): suppress duplications so
the message will not contain the same op, kind, user message or text as
the outer error `d`. -/
def suppressDup (d pd : EData) : EData :=
  let pd := if d.op = pd.op then { pd with op := "" } else pd
  let pd := if pd.kind = d.kind then { pd with kind := Unknown } else pd
  let pd := if pd.userMsg = d.userMsg then { pd with userMsg := "" } else pd
  if pd.text = d.text then { pd with text := "" } else pd

/-- Step 2 of `Error.promoteFields` (err.go): if the outer error has
Op/Kind/UserMsg/Data/ToJSON unset, pull up the inner one (move). -/
def pullUp (d pd : EData) : EData × EData :=
  let r := if d.op = "" then ({ d with op := pd.op }, { pd with op := "" })
    else (d, pd)
  let r := if r.1.kind = Unknown then
      ({ r.1 with kind := r.2.kind }, { r.2 with kind := Unknown })
    else r
  let r := if r.1.userMsg = "" then
      ({ r.1 with userMsg := r.2.userMsg }, { r.2 with userMsg := "" })
    else r
  let r := if r.1.data = none then
      ({ r.1 with data := r.2.data }, { r.2 with data := none })
    else r
  if r.1.toJSON = none then
    ({ r.1 with toJSON := r.2.toJSON }, { r.2 with toJSON := none })
  else r

/-- The conditional text pull-up at the end of `Error.promoteFields`. -/
def pullText (d pd : EData) : EData × EData :=
  if d.text = "" then ({ d with text := pd.text }, { pd with text := "" })
  else (d, pd)

/-- `Error.isZero` restricted to the scalar fields (err.go's `isZero`
also checks `Err == nil`; `hasOnlyErr` is exactly this scalar check). -/
def EData.isZero (d : EData) : Bool :=
  d.op = "" && d.kind = Unknown && d.text = "" && d.userMsg = "" &&
    d.data = none && d.toJSON = none

/-- The second half of `Error.promoteFields` (err.go), after duplicate
suppression and pull-up produced the pair `p` of outer and inner scalar
fields: the early return when the inner error still has an Op or Kind,
the conditional text pull-up, and the collapse of the wrapper layer
(`prev.isZero()` drops it; `hasOnlyErr(*prev)` replaces it by its own
cause `pc`). -/
def promoteCollapse (p : EData × EData) (pc : Option GoError) : XError :=
  if p.2.op ≠ "" ∨ p.2.kind ≠ Unknown then
    -- If Op/Kind is present, neither Text nor Err can be promoted up.
    (p.1, some (.gerr p.2 pc))
  else
    let q := pullText p.1 p.2
    if q.2.isZero && pc.isNone then (q.1, none)        -- prev.isZero()
    else if q.2.isZero then (q.1, pc)                  -- hasOnlyErr(*prev)
    else (q.1, some (.gerr q.2 pc))

/-- `Error.promoteFields` (err.go).  Only runs when the cause is a
`*Error` (`prev, ok := e.Err.(*Error)`).  The in-place mutations of
`prev` through the pointer become functional updates of the copy. -/
def promoteFields (e : XError) : XError :=
  match e.2 with
  | some (.gerr pd0 pc) => promoteCollapse (pullUp e.1 (suppressDup e.1 pd0)) pc
  | _ => e

/-- `E` (err.go): apply the options in order to a zero `Error`, run
`promoteFields` once, return the result as a Go `error`. -/
def construct (opts : List EOption) : XError :=
  promoteFields (opts.foldl (fun e o => o e) (({} : EData), none))

/-- `E` as the Go `error` it returns. -/
def E (opts : List EOption) : GoError := (construct opts).toErr

/-- `writePaddedStr` together with `pad` (err.go): append `s` to the
buffer `b`, separated by `": "` when the buffer already has data. -/
def writePaddedStr (b s : String) : String :=
  if s = "" then b else if b = "" then s else b ++ ": " ++ s

/-- `Error.Error` (err.go): op, kind (when not Unknown), text, then the
cause's own `Error()` string, written with `writePaddedStr`; the literal
`"no error"` when the buffer stayed empty.  A foreign error renders as
its own `Error()` string. -/
def GoError.render : GoError → String
  | .foreign m _ _ _ => m
  | .gerr d c =>
    let b := writePaddedStr "" d.op
    let b := if d.kind = Unknown then b else writePaddedStr b d.kind.string
    let b := writePaddedStr b d.text
    let b := match c with
      | some ce => writePaddedStr b ce.render
      | none => b
    if b = "" then "no error" else b

/-- `Error.Unwrap` (err.go) and, for a foreign error, its own `Unwrap`
capability (none when absent): together this is `errors.Unwrap`. -/
def GoError.unwrap : GoError → Option GoError
  | .gerr _ c => c
  | .foreign _ _ _ w => w

/-- `WhatKind` (kind.go) on a non-nil error: a `*Error` always implements
`GetKind` (returning its Kind field); a foreign error may.  If the
reported kind is Unknown, continue with `errors.Unwrap`. -/
def GoError.whatKind : GoError → Kind
  | .gerr d c =>
    if d.kind ≠ Unknown then d.kind
    else match c with
      | some ce => ce.whatKind
      | none => Unknown
  | .foreign _ fk _ w =>
    let rest := match w with
      | some ce => ce.whatKind
      | none => Unknown
    match fk with
    | some k => if k ≠ Unknown then k else rest
    | none => rest

/-- `WhatKind` (kind.go), including the nil case. -/
def WhatKind : Option GoError → Kind
  | none => Unknown
  | some e => e.whatKind

/-- `Error.StatusCode` (err_status_code.go): the Kind's status when the
Kind is present, otherwise 0 to delegate down the chain. -/
def EData.statusCodeM (d : EData) : Int :=
  if d.kind ≠ Unknown then d.kind.status else 0

/-- `StatusCode` (err_status_code.go) on a non-nil error: use the
`StatusCoder` capability when it reports a non-zero status, otherwise
continue with `errors.Unwrap`; an exhausted chain yields 500. -/
def GoError.statusCode : GoError → Int
  | .gerr d c =>
    if d.statusCodeM ≠ 0 then d.statusCodeM
    else match c with
      | some ce => ce.statusCode
      | none => 500
  | .foreign _ _ fs w =>
    let rest := match w with
      | some ce => ce.statusCode
      | none => 500
    match fs with
    | some s => if s ≠ 0 then s else rest
    | none => rest

/-- `StatusCode` (err_status_code.go), including the nil case
(`http.StatusInternalServerError` is 500). -/
def StatusCode : Option GoError → Int
  | none => 500
  | some e => e.statusCode

/-- `UserMsg` (user_msg.go) on a non-nil error: only a `*Error` with a
non-empty UserMsg answers; otherwise continue with `errors.Unwrap`. -/
def GoError.userMsg : GoError → String
  | .gerr d c =>
    if d.userMsg ≠ "" then d.userMsg
    else match c with
      | some ce => ce.userMsg
      | none => ""
  | .foreign _ _ _ w =>
    match w with
    | some ce => ce.userMsg
    | none => ""

/-- `UserMsg` (user_msg.go), including the nil case. -/
def UserMsg : Option GoError → String
  | none => ""
  | some e => e.userMsg

/-- A JSON value: the default projection's three-key object, or an
arbitrary value produced by a custom `JSONFunc`. -/
inductive JsonVal where
  | obj (code errStr msg : String)
  | custom (v : Int)
deriving DecidableEq, Repr

/-- `Error.JSON` (err_json.go), with `interp` interpreting the stored
`ToJSON` handle as the attached `JSONFunc`: a custom function's result is
returned verbatim; otherwise the default object is built from the
resolved kind and resolved user message. -/
def errorJSON (interp : Nat → XError → JsonVal) (e : XError) : JsonVal :=
  match e.1.toJSON with
  | some t => interp t e
  | none =>
    let k := WhatKind (some e.toErr)
    .obj k.code k.string (UserMsg (some e.toErr))

/-- The op-collecting traversal of `Error.Ops` (err.go): `walk` visits
the receiver and keeps following the cause while it is a `*Error`.
`walk` only ever receives a `*Error`; the foreign case is vacuous. -/
def opsWalk : GoError → List String
  | .gerr d c =>
    (if d.op ≠ "" then [d.op] else []) ++
      (match c with
        | some ce =>
          match ce with
          | .gerr _ _ => opsWalk ce
          | .foreign _ _ _ _ => []
        | none => [])
  | .foreign _ _ _ _ => []

/-- The data-collecting traversal inside `Error.Details`
(err_details.go), over the same `walk`. -/
def dataWalk : GoError → List Int
  | .gerr d c =>
    (match d.data with | some v => [v] | none => []) ++
      (match c with
        | some ce =>
          match ce with
          | .gerr _ _ => dataWalk ce
          | .foreign _ _ _ _ => []
        | none => [])
  | .foreign _ _ _ _ => []

/-- The `Data` field of `InternalDetails`: absent when no payload was
collected, the single payload as a scalar, or the whole sequence. -/
inductive DataField where
  | absent
  | scalar (v : Int)
  | multi (vs : List Int)
deriving DecidableEq, Repr

/-- `InternalDetails` (err_details.go). -/
structure InternalDetails where
  ops : List String
  kind : Kind
  errStr : String
  data : DataField
deriving DecidableEq, Repr

/-- `Error.Details` (err_details.go). -/
def Details (e : XError) : InternalDetails :=
  let dd := dataWalk e.toErr
  let data := match dd with
    | [] => DataField.absent
    | [v] => DataField.scalar v
    | vs => DataField.multi vs
  ⟨opsWalk e.toErr, WhatKind (some e.toErr), e.toErr.render, data⟩

/-- Simplified `%q`: the exact message text is irrelevant to every
property below (only which discrepancies are recorded matters). -/
def quoteS (s : String) : String := "\x22" ++ s ++ "\x22"

/-- The field-by-field comparisons of `Diff` (match.go): one
conditional entry per `if`/`append` statement of the Go function;
message formatting is simplified. -/
def diffBase (td ed : EData) : List String :=
  (if td.op ≠ "" ∧ td.op ≠ ed.op then
    ["Op: template=" ++ quoteS td.op ++ "; err=" ++ quoteS ed.op] else []) ++
  (if td.kind ≠ Unknown ∧ td.kind ≠ ed.kind then
    ["Kind: template=" ++ quoteS td.kind.string ++ "; err=" ++
      quoteS ed.kind.string] else []) ++
  (if td.text ≠ "" ∧ td.text ≠ ed.text then
    ["Text: template=" ++ quoteS td.text ++ "; err=" ++ quoteS ed.text]
    else []) ++
  (if td.userMsg ≠ "" ∧ td.userMsg ≠ ed.userMsg then
    ["UserMsg: template=" ++ quoteS td.userMsg ++ "; err=" ++
      quoteS ed.userMsg] else []) ++
  (if td.data ≠ none ∧ td.data ≠ ed.data then
    ["Data: template; err"] else [])

/-- `Diff` (match.go) after the type assertions.  The type-assertion
failure on either argument yields the single type-mismatch entry; an
`*Error` template cause recurses; a foreign template cause compares
`Error()` strings. -/
def DiffE : GoError → Option GoError → List String
  | .gerr td tc, some (.gerr ed ec) =>
    (match tc with
    | none => diffBase td ed
    | some tce =>
      match tce with
      | .gerr _ _ =>
        if DiffE tce ec = [] then diffBase td ed
        else diffBase td ed ++ ["Diff(template.Err, err.Err)="] ++
          (DiffE tce ec).map (fun s => "\x09" ++ s)
      | .foreign _ _ _ _ =>
        match ec with
        | none => diffBase td ed ++ ["Err(nested): template; err"]
        | some ece =>
          if ece.render ≠ tce.render then
            diffBase td ed ++ ["Err(nested): template; err"]
          else diffBase td ed)
  | _, _ => ["template; err (type mismatch)"]

/-- `Diff` (match.go): the type assertion on the template argument; the
assertion on the err argument is inside `DiffE`. -/
def Diff : Option GoError → Option GoError → List String
  | some te, e => DiffE te e
  | none, _ => ["template; err (type mismatch)"]

/-- `Match` (match.go): `len(Diff(template, err)) == 0`. -/
def Match (template err : Option GoError) : Bool :=
  (Diff template err).length == 0

/-! Spec-modelled counterparts, written from the specification's wording
and compared with the transcribed code above. -/

/-- Join a list of segments with the separator `": "`. -/
def joinSegs : List String → String
  | [] => ""
  | [s] => s
  | s :: rest => s ++ ": " ++ joinSegs rest

/-- Modelled from the spec (§4.3 string rendering): emit, in order, the
operation (if non-empty), the kind's display string (if not unknown),
the text (if non-empty), then the cause's own rendering — joining the
non-empty segments with `": "`; the literal `"no error"` when every
segment is empty. -/
def renderSpec : GoError → String
  | .foreign m _ _ _ => m
  | .gerr d c =>
    let segs :=
      ((if d.op = "" then [] else [d.op]) ++
        (if d.kind = Unknown then [] else [d.kind.string]) ++
        (if d.text = "" then [] else [d.text]) ++
        (match c with
          | none => []
          | some ce => [renderSpec ce])).filter (fun s => ¬ s = "")
    if segs = [] then "no error" else joinSegs segs

/-- The unwrap chain of an error, outermost first. -/
def chain (e : GoError) : List GoError :=
  match e with
  | .gerr d c =>
    .gerr d c :: (match c with
      | some u => chain u
      | none => [])
  | .foreign m fk fs w =>
    .foreign m fk fs w :: (match w with
      | some u => chain u
      | none => [])

/-- The status-lookup capability of one chain element: a `*Error` always
implements `StatusCoder` (via `Error.StatusCode`); a foreign error may. -/
def statusCap : GoError → Option Int
  | .gerr d _ => some d.statusCodeM
  | .foreign _ _ fs _ => fs

/-- Modelled from the spec (§4.3 status code lookup): the first element
along the chain, outermost first, whose status capability reports a
non-zero status determines the result; elements reporting zero or
lacking the capability are skipped; an exhausted chain yields 500. -/
def statusSpec (e : GoError) : Int :=
  ((chain e).findSome? (fun el =>
    match statusCap el with
    | some s => if s ≠ 0 then some s else none
    | none => none)).getD 500

/-- Modelled from the spec (§4.4 template matching): both arguments must
be `*Error`; every non-default field of the template must equal the
candidate's corresponding field, default template fields always pass; an
`*Error` template cause recurses, a foreign template cause requires a
present candidate cause with the same rendered string. -/
def matchBase (td ed : EData) : Prop :=
  (td.op = "" ∨ td.op = ed.op) ∧
  (td.kind = Unknown ∨ td.kind = ed.kind) ∧
  (td.text = "" ∨ td.text = ed.text) ∧
  (td.userMsg = "" ∨ td.userMsg = ed.userMsg) ∧
  (td.data = none ∨ td.data = ed.data)

def matchSpecP : Option GoError → Option GoError → Prop
  | some (.gerr td tc), some (.gerr ed ec) =>
    matchBase td ed ∧
    (match tc with
      | none => True
      | some tce =>
        match tce with
        | .gerr _ _ => matchSpecP (some tce) ec
        | .foreign _ _ _ _ =>
          match ec with
          | none => False
          | some ece => ece.render = tce.render)
  | _, _ => False

/-- Two error values that agree everywhere except possibly in the
internal `Text` fields of the `*Error` layers. -/
def sameExceptText : GoError → GoError → Bool
  | .gerr d c, .gerr d2 c2 =>
    d.op == d2.op && decide (d.kind = d2.kind) && d.userMsg == d2.userMsg &&
    decide (d.data = d2.data) && decide (d.toJSON = d2.toJSON) &&
    (match c, c2 with
      | none, none => true
      | some a, some b => sameExceptText a b
      | none, some _ => false
      | some _, none => false)
  | .foreign m fk fs w, .foreign m2 fk2 fs2 w2 =>
    m == m2 && decide (fk = fk2) && decide (fs = fs2) &&
    (match w, w2 with
      | none, none => true
      | some a, some b => sameExceptText a b
      | none, some _ => false
      | some _, none => false)
  | .gerr _ _, .foreign _ _ _ _ => false
  | .foreign _ _ _ _, .gerr _ _ => false

/-- The `UserMsg` fields of the `*Error` elements along the chain. -/
def userMsgFields (e : GoError) : List String :=
  (chain e).filterMap (fun el =>
    match el with
    | .gerr d _ => some d.userMsg
    | .foreign _ _ _ _ => none)

/-! Pointer-level model of `E`/`WithErr`/`promoteFields`, used for the
defensive-copy invariant: `WithErr` stores `&cp` where `cp := *err` is a
shallow copy, and `promoteFields` mutates `e` and `*prev` in place.  A
heap is a list of allocated `Error` records addressed by index; the
model restricts causes to `*Error` pointers (or nil), which is the only
case the invariant concerns — a shallow copy shares the `Err` pointer
with the original, so deeper records are borrowed, not copied. -/

/-- An allocated `Error` record: scalar fields plus the `Err` pointer. -/
structure HErr where
  d : EData := {}
  err : Option Nat := none
deriving DecidableEq, Repr

instance : Inhabited HErr := ⟨{}⟩

/-- The heap: record at address `a` is entry `a` of the list. -/
abbrev Heap := List HErr

/-- `WithErr` (option.go) at pointer level: `cp := *err; e.Err = &cp`
allocates the shallow copy at a fresh address. -/
def withErrH (p : Nat) (σ : Heap) (e : HErr) : Heap × HErr :=
  (σ ++ [σ.getD p default], { e with err := some σ.length })

/-- `Error.promoteFields` (err.go) at pointer level: `prev` is read
through `e.Err`, mutated in place (one final write of the accumulated
field updates), and `e.Err` possibly cleared or redirected to
`prev.Err`. -/
def promoteFieldsH (σ : Heap) (e : HErr) : Heap × HErr :=
  match e.err with
  | none => (σ, e)
  | some a =>
    let prev := σ.getD a default
    let pd1 := suppressDup e.d prev.d
    let p := pullUp e.d pd1
    if p.2.op ≠ "" ∨ p.2.kind ≠ Unknown then
      (σ.set a { prev with d := p.2 }, { e with d := p.1 })
    else
      let q := pullText p.1 p.2
      let σ2 := σ.set a { prev with d := q.2 }
      if q.2.isZero && prev.err.isNone then
        (σ2, { e with d := q.1, err := none })
      else if q.2.isZero then (σ2, { e with d := q.1, err := prev.err })
      else (σ2, { e with d := q.1 })

/-- `E(..., WithErr(err))` at pointer level: the outer error's scalar
fields `d0` are whatever the other options set; `WithErr` attaches the
copy of the record at `p`; `promoteFields` runs once; `return &e`
allocates the result.  Returns the new heap and the result's address. -/
def EH (d0 : EData) (p : Nat) (σ : Heap) : Heap × Nat :=
  let w := withErrH p σ { d := d0, err := none }
  let pr := promoteFieldsH w.1 w.2
  (pr.1 ++ [pr.2], pr.1.length)

/-- `Error.Error` (err.go) at pointer level, with fuel bounding the
chain walk (irrelevant on the acyclic heaps the constructor builds). -/
def renderRecH (σ : Heap) : Nat → HErr → String
  | fuel, e =>
    let b := writePaddedStr "" e.d.op
    let b := if e.d.kind = Unknown then b else writePaddedStr b e.d.kind.string
    let b := writePaddedStr b e.d.text
    let b := match e.err with
      | some a =>
        match fuel with
        | fuel2 + 1 => writePaddedStr b (renderRecH σ fuel2 (σ.getD a default))
        | 0 => b
      | none => b
    if b = "" then "no error" else b

/-- Rendering of the record at address `a`. -/
def renderPtrH (σ : Heap) (fuel : Nat) (a : Nat) : String :=
  renderRecH σ fuel (σ.getD a default)

/-- The addresses a rendering of `e` dereferences (within `fuel`). -/
def visitedH (σ : Heap) : Nat → HErr → List Nat
  | fuel, e =>
    match e.err with
    | none => []
    | some a =>
      match fuel with
      | 0 => []
      | fuel2 + 1 => a :: visitedH σ fuel2 (σ.getD a default)

/-- Every `Err` pointer of the heap is a valid address. -/
def heapClosed (σ : Heap) : Prop :=
  ∀ r ∈ σ, ∀ a, r.err = some a → a < σ.length

/-- Two adjacent layers never both carry an equal non-zero value for
operation, kind, user message, or text. -/
def noShared (a b : EData) : Prop :=
  ¬(a.op ≠ "" ∧ b.op = a.op) ∧ ¬(a.kind ≠ Unknown ∧ b.kind = a.kind) ∧
    ¬(a.userMsg ≠ "" ∧ b.userMsg = a.userMsg) ∧
    ¬(a.text ≠ "" ∧ b.text = a.text)

/-- The buffer built from one record's scalar fields by `Error.Error`
(err.go) before the cause is appended. -/
def renderScalars (e : HErr) : String :=
  writePaddedStr
    (if e.d.kind = Unknown then writePaddedStr "" e.d.op
     else writePaddedStr (writePaddedStr "" e.d.op) e.d.kind.string)
    e.d.text

/-- Depth of an error value (used only for acyclicity arguments). -/
def gsize : GoError → Nat
  | .gerr _ c => 1 + (match c with | none => 0 | some x => gsize x)
  | .foreign _ _ _ w => 1 + (match w with | none => 0 | some x => gsize x)

/-! Projection lemmas for the promotion stages. -/

theorem suppressDup_op (d pd : EData) :
    (suppressDup d pd).op = if d.op = pd.op then "" else pd.op := by
  simp only [suppressDup]; split_ifs <;> rfl

theorem suppressDup_kind (d pd : EData) :
    (suppressDup d pd).kind = if pd.kind = d.kind then Unknown else pd.kind := by
  simp only [suppressDup]; split_ifs <;> rfl

theorem suppressDup_userMsg (d pd : EData) :
    (suppressDup d pd).userMsg =
      if pd.userMsg = d.userMsg then "" else pd.userMsg := by
  simp only [suppressDup]; split_ifs <;> rfl

theorem suppressDup_text (d pd : EData) :
    (suppressDup d pd).text = if pd.text = d.text then "" else pd.text := by
  simp only [suppressDup]; split_ifs <;> rfl

theorem suppressDup_data (d pd : EData) :
    (suppressDup d pd).data = pd.data := by
  simp only [suppressDup]; split_ifs <;> rfl

theorem suppressDup_toJSON (d pd : EData) :
    (suppressDup d pd).toJSON = pd.toJSON := by
  simp only [suppressDup]; split_ifs <;> rfl

theorem pullUp_fst_op (d pd : EData) :
    (pullUp d pd).1.op = if d.op = "" then pd.op else d.op := by
  simp only [pullUp]; split_ifs <;> rfl

theorem pullUp_snd_op (d pd : EData) :
    (pullUp d pd).2.op = if d.op = "" then "" else pd.op := by
  simp only [pullUp]; split_ifs <;> rfl

theorem pullUp_fst_kind (d pd : EData) :
    (pullUp d pd).1.kind = if d.kind = Unknown then pd.kind else d.kind := by
  simp only [pullUp]; split_ifs <;> rfl

theorem pullUp_snd_kind (d pd : EData) :
    (pullUp d pd).2.kind = if d.kind = Unknown then Unknown else pd.kind := by
  simp only [pullUp]; split_ifs <;> rfl

theorem pullUp_fst_userMsg (d pd : EData) :
    (pullUp d pd).1.userMsg =
      if d.userMsg = "" then pd.userMsg else d.userMsg := by
  simp only [pullUp]; split_ifs <;> rfl

theorem pullUp_snd_userMsg (d pd : EData) :
    (pullUp d pd).2.userMsg = if d.userMsg = "" then "" else pd.userMsg := by
  simp only [pullUp]; split_ifs <;> rfl

theorem pullUp_fst_data (d pd : EData) :
    (pullUp d pd).1.data = if d.data = none then pd.data else d.data := by
  simp only [pullUp]; split_ifs <;> rfl

theorem pullUp_snd_data (d pd : EData) :
    (pullUp d pd).2.data = if d.data = none then none else pd.data := by
  simp only [pullUp]; split_ifs <;> rfl

theorem pullUp_fst_toJSON (d pd : EData) :
    (pullUp d pd).1.toJSON =
      if d.toJSON = none then pd.toJSON else d.toJSON := by
  simp only [pullUp]; split_ifs <;> rfl

theorem pullUp_snd_toJSON (d pd : EData) :
    (pullUp d pd).2.toJSON = if d.toJSON = none then none else pd.toJSON := by
  simp only [pullUp]; split_ifs <;> rfl

theorem pullUp_fst_text (d pd : EData) : (pullUp d pd).1.text = d.text := by
  simp only [pullUp]; split_ifs <;> rfl

theorem pullUp_snd_text (d pd : EData) : (pullUp d pd).2.text = pd.text := by
  simp only [pullUp]; split_ifs <;> rfl

theorem pullText_fst_op (d pd : EData) : (pullText d pd).1.op = d.op := by
  simp only [pullText]; split_ifs <;> rfl

theorem pullText_snd_op (d pd : EData) : (pullText d pd).2.op = pd.op := by
  simp only [pullText]; split_ifs <;> rfl

theorem pullText_fst_kind (d pd : EData) : (pullText d pd).1.kind = d.kind := by
  simp only [pullText]; split_ifs <;> rfl

theorem pullText_snd_kind (d pd : EData) : (pullText d pd).2.kind = pd.kind := by
  simp only [pullText]; split_ifs <;> rfl

theorem pullText_fst_userMsg (d pd : EData) :
    (pullText d pd).1.userMsg = d.userMsg := by
  simp only [pullText]; split_ifs <;> rfl

theorem pullText_snd_userMsg (d pd : EData) :
    (pullText d pd).2.userMsg = pd.userMsg := by
  simp only [pullText]; split_ifs <;> rfl

theorem pullText_fst_text (d pd : EData) :
    (pullText d pd).1.text = if d.text = "" then pd.text else d.text := by
  simp only [pullText]; split_ifs <;> rfl

theorem pullText_snd_text (d pd : EData) :
    (pullText d pd).2.text = if d.text = "" then "" else pd.text := by
  simp only [pullText]; split_ifs <;> rfl

/-- No cause option can contain itself as the wrapped layer's cause. -/
theorem ne_some_gerr_self (d : EData) (o : Option GoError) :
    o ≠ some (.gerr d o) := by
  cases o with
  | none => simp
  | some x =>
    intro h
    have hx : x = .gerr d (some x) := by injection h
    have hs := congrArg gsize hx
    rw [gsize] at hs
    omega

/-- Field-wise equality of the scalar structs. -/
theorem EData.exteq {a b : EData} (h1 : a.op = b.op) (h2 : a.kind = b.kind)
    (h3 : a.text = b.text) (h4 : a.userMsg = b.userMsg) (h5 : a.data = b.data)
    (h6 : a.toJSON = b.toJSON) : a = b := by
  cases a; cases b; simp_all

theorem suppressDup_self (d : EData) :
    suppressDup d d = { data := d.data, toJSON := d.toJSON } := by
  apply EData.exteq <;>
    simp [suppressDup_op, suppressDup_kind, suppressDup_userMsg,
      suppressDup_text, suppressDup_data, suppressDup_toJSON]

theorem pullUp_self_empty (d : EData) :
    pullUp d ({} : EData) = (d, ({} : EData)) := by
  have h1 : (pullUp d ({} : EData)).1 = d := by
    apply EData.exteq
    · rw [pullUp_fst_op]; split_ifs with h
      · exact h.symm
      · rfl
    · rw [pullUp_fst_kind]; split_ifs with h
      · exact h.symm
      · rfl
    · exact pullUp_fst_text d ({} : EData)
    · rw [pullUp_fst_userMsg]; split_ifs with h
      · exact h.symm
      · rfl
    · rw [pullUp_fst_data]; split_ifs with h
      · exact h.symm
      · rfl
    · rw [pullUp_fst_toJSON]; split_ifs with h
      · exact h.symm
      · rfl
  have h2 : (pullUp d ({} : EData)).2 = ({} : EData) := by
    apply EData.exteq
    · rw [pullUp_snd_op]; split_ifs <;> rfl
    · rw [pullUp_snd_kind]; split_ifs <;> rfl
    · exact pullUp_snd_text d ({} : EData)
    · rw [pullUp_snd_userMsg]; split_ifs <;> rfl
    · rw [pullUp_snd_data]; split_ifs <;> rfl
    · rw [pullUp_snd_toJSON]; split_ifs <;> rfl
  calc pullUp d ({} : EData) = ((pullUp d ({} : EData)).1,
      (pullUp d ({} : EData)).2) := rfl
    _ = (d, ({} : EData)) := by rw [h1, h2]

theorem pullText_self_empty (d : EData) :
    pullText d ({} : EData) = (d, ({} : EData)) := by
  have h1 : (pullText d ({} : EData)).1 = d := by
    apply EData.exteq
    · exact pullText_fst_op d ({} : EData)
    · exact pullText_fst_kind d ({} : EData)
    · rw [pullText_fst_text]; split_ifs with h
      · exact h.symm
      · rfl
    · exact pullText_fst_userMsg d ({} : EData)
    · simp [pullText]; split_ifs <;> rfl
    · simp [pullText]; split_ifs <;> rfl
  have h2 : (pullText d ({} : EData)).2 = ({} : EData) := by
    apply EData.exteq
    · exact pullText_snd_op d ({} : EData)
    · exact pullText_snd_kind d ({} : EData)
    · rw [pullText_snd_text]; split_ifs <;> rfl
    · exact pullText_snd_userMsg d ({} : EData)
    · simp [pullText]; split_ifs <;> rfl
    · simp [pullText]; split_ifs <;> rfl
  calc pullText d ({} : EData) = ((pullText d ({} : EData)).1,
      (pullText d ({} : EData)).2) := rfl
    _ = (d, ({} : EData)) := by rw [h1, h2]

/-- Definitional unfolding of `promoteFields` on a `*Error` cause. -/
theorem promoteFields_gerr (d pd0 : EData) (pc : Option GoError) :
    promoteFields (d, some (.gerr pd0 pc)) =
      promoteCollapse (pullUp d (suppressDup d pd0)) pc := rfl

/-- Wrapping an error around an identical copy of itself (with no data,
no JSON override and no cause) suppresses every duplicated field and
drops the now-empty wrapper. -/
theorem promote_dup (d : EData) (hd : d.data = none) (hj : d.toJSON = none) :
    promoteFields (d, some (.gerr d none)) = (d, none) := by
  have h1 : suppressDup d d = ({} : EData) := by
    rw [suppressDup_self, hd, hj]
  rw [promoteFields_gerr, h1, pullUp_self_empty]
  simp [promoteCollapse, pullText_self_empty, EData.isZero]

/-- Constructing `E [o]` and then wrapping it with the same single
option collapses to `E [o]` itself. -/
theorem E_dup (oo : EOption) (d : EData)
    (hoo : oo (({} : EData), none) = (d, none))
    (hd : d.data = none) (hj : d.toJSON = none) :
    E [oo, WithErr (some (E [oo]))] = E [oo] := by
  have h1 : construct [oo] = (d, none) := by
    simp only [construct, List.foldl, hoo]
    rfl
  have h2 : E [oo] = .gerr d none := by rw [E, h1]; rfl
  have h3 : construct [oo, WithErr (some (E [oo]))] = (d, none) := by
    simp only [construct, List.foldl, hoo, WithErr, h2]
    exact promote_dup d hd hj
  rw [E, h3, E, h1]

/-- After duplicate suppression and pull-up, the outer and inner scalar
fields never both carry an equal non-zero op, kind, user message or
text. -/
theorem noShared_stage1 (d pd0 : EData) :
    noShared (pullUp d (suppressDup d pd0)).1 (pullUp d (suppressDup d pd0)).2 := by
  refine ⟨?_, ?_, ?_, ?_⟩
  · rintro ⟨hne, heq⟩
    rw [pullUp_fst_op, suppressDup_op] at hne heq
    rw [pullUp_snd_op, suppressDup_op] at heq
    split_ifs at hne heq <;> simp_all
  · rintro ⟨hne, heq⟩
    rw [pullUp_fst_kind, suppressDup_kind] at hne heq
    rw [pullUp_snd_kind, suppressDup_kind] at heq
    split_ifs at hne heq <;> simp_all
  · rintro ⟨hne, heq⟩
    rw [pullUp_fst_userMsg, suppressDup_userMsg] at hne heq
    rw [pullUp_snd_userMsg, suppressDup_userMsg] at heq
    split_ifs at hne heq <;> simp_all
  · rintro ⟨hne, heq⟩
    rw [pullUp_fst_text] at hne heq
    rw [pullUp_snd_text, suppressDup_text] at heq
    split_ifs at heq <;> simp_all

/-- The conditional text pull-up preserves the no-shared-field property
when the inner error has no op and no kind left. -/
theorem noShared_stage2 (p1 p2 : EData) (hop : p2.op = "")
    (hsh : noShared p1 p2) :
    noShared (pullText p1 p2).1 (pullText p1 p2).2 := by
  obtain ⟨s1, s2, s3, s4⟩ := hsh
  refine ⟨?_, ?_, ?_, ?_⟩
  · rintro ⟨hne, heq⟩
    rw [pullText_fst_op] at hne heq
    rw [pullText_snd_op, hop] at heq
    exact hne heq.symm
  · rintro ⟨hne, heq⟩
    rw [pullText_fst_kind] at hne heq
    rw [pullText_snd_kind] at heq
    exact s2 ⟨hne, heq⟩
  · rintro ⟨hne, heq⟩
    rw [pullText_fst_userMsg] at hne heq
    rw [pullText_snd_userMsg] at heq
    exact s3 ⟨hne, heq⟩
  · rintro ⟨hne, heq⟩
    rw [pullText_fst_text] at hne heq
    rw [pullText_snd_text] at heq
    split_ifs at hne heq with h
    · exact hne heq.symm
    · exact s4 ⟨hne, heq⟩

/-- C1.  Duplicate suppression and collapse: wrapping (via `E` and
`WithErr`) an otherwise-empty Error around an otherwise-empty Error with
the same operation, kind, user message or text yields the single-field
error itself, so the shared field appears exactly once in the rendering;
in particular `E(WithOp("Get"), WithErr(E(WithOp("Get"))))` renders
exactly `"Get"` and its cause is dropped. -/
theorem dup_suppression_collapse :
    (∀ s : String, E [WithOp s, WithErr (some (E [WithOp s]))] = E [WithOp s]) ∧
    (∀ k : Kind,
      E [Kind.apply k, WithErr (some (E [Kind.apply k]))] = E [Kind.apply k]) ∧
    (∀ m : String,
      E [WithUserMsg m, WithErr (some (E [WithUserMsg m]))] =
        E [WithUserMsg m]) ∧
    (∀ t : String,
      E [WithText t, WithErr (some (E [WithText t]))] = E [WithText t]) ∧
    (E [WithOp "Get", WithErr (some (E [WithOp "Get"]))]).render = "Get" ∧
    (E [WithOp "Get", WithErr (some (E [WithOp "Get"]))]).unwrap = none :=
  ⟨fun s => E_dup (WithOp s) { op := s } rfl rfl rfl,
   fun k => E_dup (Kind.apply k) { kind := k } rfl rfl rfl,
   fun m => E_dup (WithUserMsg m) { userMsg := m } rfl rfl rfl,
   fun t => E_dup (WithText t) { text := t } rfl rfl rfl,
   by decide, by decide⟩

/-- C2.  Pull-up law: `E(WithOp("Get"), WithErr(E(WithData(420))))` has
the data 420 promoted into the outer error, an absent cause, rendered
string exactly `"Get"`, and `Details()` reports the single payload 420
as a scalar. -/
theorem pull_up_law :
    construct [WithOp "Get", WithErr (some (E [WithData 420]))] =
      ({ op := "Get", data := some 420 }, none) ∧
    (E [WithOp "Get", WithErr (some (E [WithData 420]))]).render = "Get" ∧
    (E [WithOp "Get", WithErr (some (E [WithData 420]))]).unwrap = none ∧
    Details (construct [WithOp "Get", WithErr (some (E [WithData 420]))]) =
      ⟨["Get"], Unknown, "Get", DataField.scalar 420⟩ :=
  ⟨by decide, by decide, by decide, by decide⟩

/-- C3.  Non-promotion guard: when the outer error has only an
operation and the inner error still carries an op or kind after
suppression and pull-up, text and cause are not promoted and the wrapper
layer is kept; in particular
`E(WithOp("Op1"), WithErr(E(WithOp("Op2"), WithText("msg"))))` renders
`"Op1: Op2: msg"` and keeps the inner layer nested. -/
theorem non_promotion_guard :
    (∀ (opv : String) (pd0 : EData) (pc : Option GoError) (p : EData × EData),
      p = pullUp { op := opv } (suppressDup { op := opv } pd0) →
      p.2.op ≠ "" ∨ p.2.kind ≠ Unknown →
      promoteFields (({ op := opv } : EData), some (.gerr pd0 pc)) =
        (p.1, some (.gerr p.2 pc)) ∧ p.1.text = "") ∧
    (E [WithOp "Op1", WithErr (some (E [WithOp "Op2", WithText "msg"]))]).render
      = "Op1: Op2: msg" ∧
    (E [WithOp "Op1", WithErr (some (E [WithOp "Op2", WithText "msg"]))]).unwrap
      = some (.gerr { op := "Op2", text := "msg" } none) := by
  refine ⟨?_, by decide, by decide⟩
  rintro opv pd0 pc p rfl hg
  constructor
  · rw [promoteFields_gerr]
    unfold promoteCollapse
    rw [if_pos hg]
  · exact pullUp_fst_text _ _

/-- C3 witness: the guard hypothesis discharged at the concrete Op1/Op2
instance. -/
theorem non_promotion_guard_witness :
    promoteFields (({ op := "Op1" } : EData),
        some (.gerr { op := "Op2", text := "msg" } none)) =
      (({ op := "Op1" } : EData),
        some (.gerr { op := "Op2", text := "msg" } none)) ∧
    (({ op := "Op1" } : EData)).text = "" := by
  have h := non_promotion_guard.1 "Op1" { op := "Op2", text := "msg" } none
    (pullUp { op := "Op1" } (suppressDup { op := "Op1" }
      { op := "Op2", text := "msg" })) rfl (by decide)
  refine ⟨?_, h.2⟩
  rw [h.1]
  decide

/-- C10.  If promotion keeps the processed wrapped copy as the result's
immediate cause (neither dropping the wrapper nor replacing it with the
wrapper's own cause — the kept copy is recognized by still carrying the
original cause `pc`), then the result and that immediate cause never
both carry an equal non-zero operation, kind, user message, or text. -/
theorem no_adjacent_duplication (d pd0 : EData) (pc : Option GoError)
    (d2 pd2 : EData)
    (h : promoteFields (d, some (.gerr pd0 pc)) = (d2, some (.gerr pd2 pc))) :
    noShared d2 pd2 := by
  rw [promoteFields_gerr] at h
  set p := pullUp d (suppressDup d pd0) with hp
  by_cases hg : p.2.op ≠ "" ∨ p.2.kind ≠ Unknown
  · unfold promoteCollapse at h
    rw [if_pos hg] at h
    simp only [Prod.mk.injEq, Option.some.injEq, GoError.gerr.injEq] at h
    obtain ⟨h1, h2, -⟩ := h
    rw [← h1, ← h2, hp]
    exact noShared_stage1 d pd0
  · unfold promoteCollapse at h
    rw [if_neg hg] at h
    push_neg at hg
    simp only [] at h
    set q := pullText p.1 p.2 with hq
    by_cases hz : q.2.isZero
    · cases pc with
      | none => simp [hz] at h
      | some pcv =>
        rw [if_neg (by simp), if_pos hz] at h
        simp only [Prod.mk.injEq] at h
        exact absurd h.2 (ne_some_gerr_self pd2 (some pcv))
    · rw [if_neg (by simp [hz]), if_neg hz] at h
      simp only [Prod.mk.injEq, Option.some.injEq, GoError.gerr.injEq] at h
      obtain ⟨h1, h2, -⟩ := h
      rw [← h1, ← h2, hq]
      exact noShared_stage2 p.1 p.2 hg.1 (hp ▸ noShared_stage1 d pd0)

/-- C10 witness: a concrete construction whose promotion keeps the
wrapper: outer op `"A"`, inner op `"B"` with text `"t"`. -/
theorem no_adjacent_duplication_witness :
    noShared { op := "A" } { op := "B", text := "t" } :=
  no_adjacent_duplication { op := "A" } { op := "B", text := "t" } none
    { op := "A" } { op := "B", text := "t" } (by decide)

theorem append_ne_empty (a b : String) (h : a ≠ "") : a ++ b ≠ "" := by
  intro hab
  apply h
  apply String.ext
  have hd := congrArg String.data hab
  rw [String.data_append] at hd
  exact (List.append_eq_nil.mp hd).1

theorem joinSegs_ne_empty (l : List String) (hall : ∀ x ∈ l, x ≠ "")
    (h : l ≠ []) : joinSegs l ≠ "" := by
  induction l with
  | nil => exact absurd rfl h
  | cons x t ih =>
    cases t with
    | nil => simpa using hall x (by simp)
    | cons y r =>
      show x ++ ": " ++ joinSegs (y :: r) ≠ ""
      exact append_ne_empty _ _ (append_ne_empty _ _ (hall x (by simp)))

theorem joinSegs_append_last (l : List String) (s : String) (h : l ≠ []) :
    joinSegs (l ++ [s]) = joinSegs l ++ ": " ++ s := by
  induction l with
  | nil => exact absurd rfl h
  | cons x t ih =>
    cases t with
    | nil => rfl
    | cons y r =>
      show x ++ ": " ++ joinSegs ((y :: r) ++ [s]) =
        (x ++ ": " ++ joinSegs (y :: r)) ++ ": " ++ s
      rw [ih (by simp)]
      simp [String.append_assoc]

theorem wps_filter (l : List String) (s : String) :
    writePaddedStr (joinSegs (l.filter (fun s => ¬ s = ""))) s =
      joinSegs ((l ++ [s]).filter (fun s => ¬ s = "")) := by
  by_cases hs : s = ""
  · subst hs
    simp [writePaddedStr, List.filter_append]
  · rw [List.filter_append]
    have hfs : [s].filter (fun s => ¬ s = "") = [s] := by simp [hs]
    rw [hfs]
    by_cases hl : l.filter (fun s => ¬ s = "") = []
    · rw [hl]
      simp [writePaddedStr, hs, joinSegs]
    · rw [joinSegs_append_last _ s hl]
      unfold writePaddedStr
      rw [if_neg hs, if_neg (joinSegs_ne_empty _ ?_ hl)]
      intro x hx
      simpa using (List.mem_filter.mp hx).2

theorem foldl_wps_filter (l l2 : List String) :
    List.foldl writePaddedStr (joinSegs (l.filter (fun s => ¬ s = ""))) l2 =
      joinSegs ((l ++ l2).filter (fun s => ¬ s = "")) := by
  induction l2 generalizing l with
  | nil => simp
  | cons s t ih =>
    simp only [List.foldl_cons]
    rw [wps_filter l s, ih (l ++ [s])]
    simp [List.append_assoc]

theorem render_buffer (d : EData) (c : Option GoError) :
    GoError.render (.gerr d c) =
      (if List.foldl writePaddedStr ""
          ([d.op] ++ (if d.kind = Unknown then [] else [d.kind.string]) ++
            [d.text] ++
            (match c with | none => [] | some ce => [ce.render])) = ""
       then "no error"
       else List.foldl writePaddedStr ""
          ([d.op] ++ (if d.kind = Unknown then [] else [d.kind.string]) ++
            [d.text] ++
            (match c with | none => [] | some ce => [ce.render]))) := by
  cases c <;> by_cases hk : d.kind = Unknown <;>
    simp [GoError.render, hk]

theorem spec_if_bridge (L : List String) :
    (if joinSegs (L.filter (fun s => ¬ s = "")) = "" then "no error"
     else joinSegs (L.filter (fun s => ¬ s = ""))) =
      (if L.filter (fun s => ¬ s = "") = [] then "no error"
       else joinSegs (L.filter (fun s => ¬ s = ""))) := by
  by_cases hS : L.filter (fun s => ¬ s = "") = []
  · rw [hS]; simp [joinSegs]
  · rw [if_neg hS, if_neg (joinSegs_ne_empty _
      (fun x hx => by simpa using (List.mem_filter.mp hx).2) hS)]

theorem foldl_wps (L : List String) :
    List.foldl writePaddedStr "" L =
      joinSegs (L.filter (fun s => ¬ s = "")) := by
  have hf := foldl_wps_filter [] L
  simpa [joinSegs] using hf

theorem filter_single_if (s : String) :
    [s].filter (fun s => ¬ s = "") =
      (if s = "" then [] else [s]).filter (fun s => ¬ s = "") := by
  by_cases h : s = "" <;> simp [h]

theorem render_eq_spec : ∀ e : GoError, e.render = renderSpec e
  | .foreign _ _ _ _ => rfl
  | .gerr d c => by
    have ihall : ∀ ce, c = some ce → GoError.render ce = renderSpec ce :=
      fun ce hce => render_eq_spec ce
    cases c with
    | none =>
      rw [render_buffer]
      dsimp only
      rw [foldl_wps]
      have hfeq : ([d.op] ++
            (if d.kind = Unknown then [] else [d.kind.string]) ++
            [d.text] ++ []).filter (fun s => ¬ s = "") =
          ((if d.op = "" then [] else [d.op]) ++
            (if d.kind = Unknown then [] else [d.kind.string]) ++
            (if d.text = "" then [] else [d.text]) ++
            []).filter (fun s => ¬ s = "") := by
        simp only [List.filter_append]
        rw [← filter_single_if d.op, ← filter_single_if d.text]
      rw [hfeq, spec_if_bridge]
      rfl
    | some ce =>
      rw [render_buffer]
      dsimp only
      rw [foldl_wps]
      have hfeq : ([d.op] ++
            (if d.kind = Unknown then [] else [d.kind.string]) ++
            [d.text] ++ [GoError.render ce]).filter (fun s => ¬ s = "") =
          ((if d.op = "" then [] else [d.op]) ++
            (if d.kind = Unknown then [] else [d.kind.string]) ++
            (if d.text = "" then [] else [d.text]) ++
            [renderSpec ce]).filter (fun s => ¬ s = "") := by
        simp only [List.filter_append]
        rw [← filter_single_if d.op, ← filter_single_if d.text,
          ihall ce rfl]
      rw [hfeq, spec_if_bridge]
      rfl
termination_by e => gsize e
decreasing_by
  subst hce
  change gsize ce < 1 + gsize ce
  omega

/-- C5.  String rendering: for every Error the rendering emits, in
order, the operation (if non-empty), the kind's display string (if not
Unknown), the text (if non-empty), then the cause's own rendering,
joining non-empty segments with `": "`; an entirely empty Error renders
as the literal `"no error"`; in particular
`E(WithOp("Get"), NotFound, WithTextf("boom %d", 5))` renders
`"Get: not found: boom 5"`, its `WhatKind` is NotFound and its
`StatusCode` is 404. -/
theorem string_rendering :
    (∀ e : GoError, e.render = renderSpec e) ∧
    (E [WithOp "Get", NotFound.apply, WithTextf "boom %d" [5]]).render =
      "Get: not found: boom 5" ∧
    WhatKind (some (E [WithOp "Get", NotFound.apply, WithTextf "boom %d" [5]]))
      = NotFound ∧
    StatusCode (some (E [WithOp "Get", NotFound.apply, WithTextf "boom %d" [5]]))
      = 404 ∧
    (GoError.gerr {} none).render = "no error" ∧
    (GoError.gerr {} (some (.gerr {} none))).render = "no error" :=
  ⟨render_eq_spec, by decide, by decide, by decide, by decide, by decide⟩

/-- The transcribed `StatusCode` recursion agrees with the
spec-modelled first-non-zero-capability walk over the unwrap chain. -/
theorem statusCode_eq_spec : ∀ e : GoError, e.statusCode = statusSpec e
  | .gerr d c => by
    have ihall : ∀ ce, c = some ce → ce.statusCode = statusSpec ce :=
      fun ce hce => statusCode_eq_spec ce
    cases c with
    | none =>
      by_cases hm : d.statusCodeM = 0 <;>
        simp [GoError.statusCode, statusSpec, chain, statusCap, hm]
    | some ce =>
      by_cases hm : d.statusCodeM = 0
      · rw [show GoError.statusCode (.gerr d (some ce)) = ce.statusCode by
          simp [GoError.statusCode, hm]]
        rw [ihall ce rfl]
        simp [statusSpec, chain, statusCap, hm]
      · simp [GoError.statusCode, statusSpec, chain, statusCap, hm]
  | .foreign m fk fs w => by
    have ihall : ∀ ce, w = some ce → ce.statusCode = statusSpec ce :=
      fun ce hce => statusCode_eq_spec ce
    cases w with
    | none =>
      cases fs with
      | none => simp [GoError.statusCode, statusSpec, chain, statusCap]
      | some s =>
        by_cases hs : s = 0 <;>
          simp [GoError.statusCode, statusSpec, chain, statusCap, hs]
    | some ce =>
      cases fs with
      | none =>
        rw [show GoError.statusCode (.foreign m fk none (some ce))
            = ce.statusCode by simp [GoError.statusCode]]
        rw [ihall ce rfl]
        simp [statusSpec, chain, statusCap]
      | some s =>
        by_cases hs : s = 0
        · rw [show GoError.statusCode (.foreign m fk (some s) (some ce))
              = ce.statusCode by simp [GoError.statusCode, hs]]
          rw [ihall ce rfl]
          simp [statusSpec, chain, statusCap, hs]
        · simp [GoError.statusCode, statusSpec, chain, statusCap, hs]
termination_by e => gsize e
decreasing_by
  all_goals (subst hce; change gsize ce < 1 + gsize ce; omega)

/-- C6.  Status code lookup: 500 for a nil error; for a non-nil error
the result is the first non-zero status capability along the unwrap
chain, outermost first, elements reporting exactly zero (or lacking the
capability) being skipped, with 500 when the chain is exhausted; and an
Error value itself reports its Kind's status when the Kind is not
Unknown and zero otherwise. -/
theorem status_code_lookup :
    StatusCode none = 500 ∧
    (∀ e : GoError, StatusCode (some e) = statusSpec e) ∧
    (∀ d : EData, d.statusCodeM =
      if d.kind ≠ Unknown then d.kind.status else 0) ∧
    (∀ (m : String) (fk : Option Kind) (ce : GoError),
      (GoError.foreign m fk (some 0) (some ce)).statusCode = ce.statusCode) ∧
    (∀ (m : String) (fk : Option Kind),
      (GoError.foreign m fk (some 0) none).statusCode = 500) :=
  ⟨rfl, fun e => statusCode_eq_spec e, fun _ => rfl,
   fun m fk ce => by simp [GoError.statusCode],
   fun m fk => by simp [GoError.statusCode]⟩

theorem Diff_some (te : GoError) (e : Option GoError) :
    Diff (some te) e = DiffE te e := rfl

theorem DiffE_nilcause (td ed : EData) (ec : Option GoError) :
    DiffE (.gerr td none) (some (.gerr ed ec)) = diffBase td ed := rfl

theorem DiffE_gcause (td x : EData) (y : Option GoError) (ed : EData)
    (ec : Option GoError) :
    DiffE (.gerr td (some (.gerr x y))) (some (.gerr ed ec)) =
      (if DiffE (.gerr x y) ec = [] then diffBase td ed
       else diffBase td ed ++ ["Diff(template.Err, err.Err)="] ++
         (DiffE (.gerr x y) ec).map (fun s => "\x09" ++ s)) := rfl

theorem DiffE_fcause_nil (td : EData) (fm : String) (ffk : Option Kind)
    (ffs : Option Int) (fw : Option GoError) (ed : EData) :
    DiffE (.gerr td (some (.foreign fm ffk ffs fw))) (some (.gerr ed none)) =
      diffBase td ed ++ ["Err(nested): template; err"] := rfl

theorem DiffE_fcause_some (td : EData) (fm : String) (ffk : Option Kind)
    (ffs : Option Int) (fw : Option GoError) (ed : EData) (ece : GoError) :
    DiffE (.gerr td (some (.foreign fm ffk ffs fw)))
        (some (.gerr ed (some ece))) =
      (if ece.render ≠ (GoError.foreign fm ffk ffs fw).render then
        diffBase td ed ++ ["Err(nested): template; err"]
       else diffBase td ed) := rfl

theorem matchSpecP_nilcause (td ed : EData) (ec : Option GoError) :
    matchSpecP (some (.gerr td none)) (some (.gerr ed ec)) =
      (matchBase td ed ∧ True) := by simp only [matchSpecP]

theorem matchSpecP_gcause (td x : EData) (y : Option GoError) (ed : EData)
    (ec : Option GoError) :
    matchSpecP (some (.gerr td (some (.gerr x y)))) (some (.gerr ed ec)) =
      (matchBase td ed ∧ matchSpecP (some (.gerr x y)) ec) := by
  simp only [matchSpecP]

theorem matchSpecP_fcause_nil (td : EData) (fm : String) (ffk : Option Kind)
    (ffs : Option Int) (fw : Option GoError) (ed : EData) :
    matchSpecP (some (.gerr td (some (.foreign fm ffk ffs fw))))
        (some (.gerr ed none)) = (matchBase td ed ∧ False) := by
  simp only [matchSpecP]

theorem matchSpecP_fcause_some (td : EData) (fm : String) (ffk : Option Kind)
    (ffs : Option Int) (fw : Option GoError) (ed : EData) (ece : GoError) :
    matchSpecP (some (.gerr td (some (.foreign fm ffk ffs fw))))
        (some (.gerr ed (some ece))) =
      (matchBase td ed ∧ ece.render = (GoError.foreign fm ffk ffs fw).render)
      := by simp only [matchSpecP]

theorem diffBase_nil_iff (td ed : EData) :
    diffBase td ed = [] ↔ matchBase td ed := by
  simp [diffBase, matchBase, List.append_eq_nil]
  tauto

theorem diff_nil_iff : ∀ (t e : Option GoError), Diff t e = [] ↔ matchSpecP t e
  | none, e => by
    rw [show Diff none e = ["template; err (type mismatch)"] from rfl]
    rw [show matchSpecP none e = False from by simp only [matchSpecP]]
    simp
  | some (.foreign m fk fs w), e => by
    rw [show Diff (some (.foreign m fk fs w)) e =
      ["template; err (type mismatch)"] from rfl]
    rw [show matchSpecP (some (.foreign m fk fs w)) e = False from by
      simp only [matchSpecP]]
    simp
  | some (.gerr td tc), none => by
    rw [show Diff (some (.gerr td tc)) none =
      ["template; err (type mismatch)"] from rfl]
    rw [show matchSpecP (some (.gerr td tc)) none = False from by
      simp only [matchSpecP]]
    simp
  | some (.gerr td tc), some (.foreign m2 fk2 fs2 w2) => by
    rw [show Diff (some (.gerr td tc)) (some (.foreign m2 fk2 fs2 w2)) =
      ["template; err (type mismatch)"] from rfl]
    rw [show matchSpecP (some (.gerr td tc)) (some (.foreign m2 fk2 fs2 w2)) =
      False from by simp only [matchSpecP]]
    simp
  | some (.gerr td tc), some (.gerr ed ec) => by
    cases tc with
    | none =>
      rw [Diff_some, DiffE_nilcause, matchSpecP_nilcause, diffBase_nil_iff]
      simp
    | some tce =>
      cases tce with
      | gerr x y =>
        have ih := diff_nil_iff (some (.gerr x y)) ec
        rw [Diff_some] at ih
        rw [Diff_some, DiffE_gcause, matchSpecP_gcause]
        by_cases hc : DiffE (.gerr x y) ec = []
        · rw [if_pos hc, diffBase_nil_iff]
          simp [ih.mp hc]
        · rw [if_neg hc]
          constructor
          · intro h; simp [List.append_eq_nil] at h
          · rintro ⟨-, hm⟩; exact absurd (ih.mpr hm) hc
      | foreign fm ffk ffs fw =>
        cases ec with
        | none =>
          rw [Diff_some, DiffE_fcause_nil, matchSpecP_fcause_nil]
          constructor
          · intro h; simp [List.append_eq_nil] at h
          · rintro ⟨-, h⟩; exact h.elim
        | some ece =>
          rw [Diff_some, DiffE_fcause_some, matchSpecP_fcause_some]
          by_cases hr : ece.render = (GoError.foreign fm ffk ffs fw).render
          · rw [if_neg (not_not_intro hr), diffBase_nil_iff]
            simp [hr]
          · rw [if_pos hr]
            constructor
            · intro h; simp [List.append_eq_nil] at h
            · rintro ⟨-, h⟩; exact absurd h hr
termination_by t e => match t with | some x => gsize x | none => 0
decreasing_by
  simp only [gsize]
  omega

/-- C4.  Template matching: `Match(template, candidate)` is true exactly
when `Diff(template, candidate)` is empty, which holds exactly when both
arguments are `*Error` values, every non-default field of the template
(operation, kind, text, user message, data) equals the candidate's
corresponding field (default template fields always pass), and the
comparison recurses into an `*Error`-typed template cause; in particular
the template `{op: "Get"}` matches `{op: "Get", kind: NotFound}` but not
conversely. -/
theorem template_matching :
    (∀ t e : Option GoError, Match t e = true ↔ Diff t e = []) ∧
    (∀ t e : Option GoError, Match t e = true ↔ matchSpecP t e) ∧
    Match (some (E [WithOp "Get"]))
      (some (E [WithOp "Get", NotFound.apply])) = true ∧
    Match (some (E [WithOp "Get", NotFound.apply]))
      (some (E [WithOp "Get"])) = false := by
  have hmd : ∀ t e, Match t e = true ↔ Diff t e = [] := by
    intro t e
    unfold Match
    rw [beq_iff_eq, List.length_eq_zero]
  exact ⟨hmd, fun t e => (hmd t e).trans (diff_nil_iff t e),
    by decide, by decide⟩

theorem whatKind_sameText : ∀ a b : GoError, sameExceptText a b = true →
    a.whatKind = b.whatKind
  | .gerr d c, .gerr d2 c2, h => by
    cases c with
    | none =>
      cases c2 with
      | none =>
        simp only [sameExceptText, Bool.and_eq_true, beq_iff_eq,
          decide_eq_true_eq] at h
        obtain ⟨⟨⟨⟨⟨hop, hk⟩, hu⟩, hd⟩, hj⟩, -⟩ := h
        simp only [GoError.whatKind, hk]
      | some b2 =>
        simp only [sameExceptText, Bool.and_eq_true] at h
        simp at h
    | some a2 =>
      cases c2 with
      | none =>
        simp only [sameExceptText, Bool.and_eq_true] at h
        simp at h
      | some b2 =>
        simp only [sameExceptText, Bool.and_eq_true, beq_iff_eq,
          decide_eq_true_eq] at h
        obtain ⟨⟨⟨⟨⟨hop, hk⟩, hu⟩, hd⟩, hj⟩, hc⟩ := h
        have ih := whatKind_sameText a2 b2 hc
        simp only [GoError.whatKind, hk, ih]
  | .gerr d c, .foreign m fk fs w, h => by
    exact absurd (show false = true from h) Bool.false_ne_true
  | .foreign m fk fs w, .gerr d c, h => by
    exact absurd (show false = true from h) Bool.false_ne_true
  | .foreign m fk fs w, .foreign m2 fk2 fs2 w2, h => by
    cases w with
    | none =>
      cases w2 with
      | none =>
        simp only [sameExceptText, Bool.and_eq_true, beq_iff_eq,
          decide_eq_true_eq] at h
        obtain ⟨⟨⟨hm, hk⟩, hs⟩, -⟩ := h
        simp only [GoError.whatKind, hk]
      | some b2 =>
        simp only [sameExceptText, Bool.and_eq_true] at h
        simp at h
    | some a2 =>
      cases w2 with
      | none =>
        simp only [sameExceptText, Bool.and_eq_true] at h
        simp at h
      | some b2 =>
        simp only [sameExceptText, Bool.and_eq_true, beq_iff_eq,
          decide_eq_true_eq] at h
        obtain ⟨⟨⟨hm, hk⟩, hs⟩, hw⟩ := h
        have ih := whatKind_sameText a2 b2 hw
        simp only [GoError.whatKind, hk, ih]
termination_by a b => gsize a
decreasing_by
  all_goals (simp only [*, gsize]; omega)

theorem userMsg_sameText : ∀ a b : GoError, sameExceptText a b = true →
    a.userMsg = b.userMsg
  | .gerr d c, .gerr d2 c2, h => by
    cases c with
    | none =>
      cases c2 with
      | none =>
        simp only [sameExceptText, Bool.and_eq_true, beq_iff_eq,
          decide_eq_true_eq] at h
        obtain ⟨⟨⟨⟨⟨hop, hk⟩, hu⟩, hd⟩, hj⟩, -⟩ := h
        simp only [GoError.userMsg, hu]
      | some b2 =>
        simp only [sameExceptText, Bool.and_eq_true] at h
        simp at h
    | some a2 =>
      cases c2 with
      | none =>
        simp only [sameExceptText, Bool.and_eq_true] at h
        simp at h
      | some b2 =>
        simp only [sameExceptText, Bool.and_eq_true, beq_iff_eq,
          decide_eq_true_eq] at h
        obtain ⟨⟨⟨⟨⟨hop, hk⟩, hu⟩, hd⟩, hj⟩, hc⟩ := h
        have ih := userMsg_sameText a2 b2 hc
        simp only [GoError.userMsg, hu, ih]
  | .gerr d c, .foreign m fk fs w, h => by
    exact absurd (show false = true from h) Bool.false_ne_true
  | .foreign m fk fs w, .gerr d c, h => by
    exact absurd (show false = true from h) Bool.false_ne_true
  | .foreign m fk fs w, .foreign m2 fk2 fs2 w2, h => by
    cases w with
    | none =>
      cases w2 with
      | none => rfl
      | some b2 =>
        simp only [sameExceptText, Bool.and_eq_true] at h
        simp at h
    | some a2 =>
      cases w2 with
      | none =>
        simp only [sameExceptText, Bool.and_eq_true] at h
        simp at h
      | some b2 =>
        simp only [sameExceptText, Bool.and_eq_true, beq_iff_eq,
          decide_eq_true_eq] at h
        obtain ⟨⟨⟨hm, hk⟩, hs⟩, hw⟩ := h
        have ih := userMsg_sameText a2 b2 hw
        simp only [GoError.userMsg, ih]
termination_by a b => gsize a
decreasing_by
  all_goals (simp only [*, gsize]; omega)

theorem userMsg_from_fields : ∀ e : GoError,
    e.userMsg = "" ∨ e.userMsg ∈ userMsgFields e
  | .gerr d c => by
    by_cases hu : d.userMsg = ""
    · cases c with
      | none => left; simp [GoError.userMsg, hu]
      | some u =>
        rcases userMsg_from_fields u with h | h
        · left; simp [GoError.userMsg, hu, h]
        · right
          rw [show (GoError.gerr d (some u)).userMsg = u.userMsg by
            simp [GoError.userMsg, hu]]
          rw [show userMsgFields (.gerr d (some u)) =
            d.userMsg :: userMsgFields u from rfl]
          exact List.mem_cons_of_mem _ h
    · right
      cases c with
      | none =>
        rw [show (GoError.gerr d none).userMsg = d.userMsg by
          simp [GoError.userMsg, hu]]
        simp [userMsgFields, chain]
      | some u =>
        rw [show (GoError.gerr d (some u)).userMsg = d.userMsg by
          simp [GoError.userMsg, hu]]
        rw [show userMsgFields (.gerr d (some u)) =
          d.userMsg :: userMsgFields u from rfl]
        exact List.mem_cons_self _ _
  | .foreign m fk fs w => by
    cases w with
    | none => left; rfl
    | some u =>
      rcases userMsg_from_fields u with h | h
      · left
        simpa [GoError.userMsg] using h
      · right
        rw [show (GoError.foreign m fk fs (some u)).userMsg = u.userMsg
          from rfl]
        rw [show userMsgFields (.foreign m fk fs (some u)) = userMsgFields u
          from rfl]
        exact h
termination_by e => gsize e
decreasing_by
  all_goals (simp only [*, gsize]; omega)

/-- The ToJSON handles of related layers agree. -/
theorem toJSON_sameText (d : EData) (c : Option GoError) (d2 : EData)
    (c2 : Option GoError)
    (h : sameExceptText (.gerr d c) (.gerr d2 c2) = true) :
    d.toJSON = d2.toJSON := by
  cases c <;> cases c2 <;>
    simp only [sameExceptText, Bool.and_eq_true, beq_iff_eq,
      decide_eq_true_eq] at h <;>
    first
      | exact h.1.2
      | exact absurd h.2 Bool.false_ne_true

/-- C7.  JSON projection: with a custom override attached, `JSON()`
returns the override's result verbatim; otherwise it returns the default
object built from the resolved Kind's code and display string and the
resolved user message; in particular
`E(InvalidInput, WithUserMsg("Deal with it!")).JSON()` is
`{"code":"INVALID_INPUT","error":"invalid input","msg":"Deal with it!"}`
and an empty Error's `JSON()` is
`{"code":"","error":"unknown error","msg":""}`. -/
theorem json_projection :
    (∀ (interp : Nat → XError → JsonVal) (e : XError) (t : Nat),
      e.1.toJSON = some t → errorJSON interp e = interp t e) ∧
    (∀ (interp : Nat → XError → JsonVal) (e : XError),
      e.1.toJSON = none →
      errorJSON interp e =
        .obj (WhatKind (some e.toErr)).code (WhatKind (some e.toErr)).string
          (UserMsg (some e.toErr))) ∧
    (∀ interp : Nat → XError → JsonVal,
      errorJSON interp
          (construct [InvalidInput.apply, WithUserMsg "Deal with it!"]) =
        .obj "INVALID_INPUT" "invalid input" "Deal with it!") ∧
    (∀ interp : Nat → XError → JsonVal,
      errorJSON interp (({} : EData), none) = .obj "" "unknown error" "") := by
  refine ⟨?_, ?_, fun _ => rfl, fun _ => rfl⟩
  · intro interp e t h
    simp [errorJSON, h]
  · intro interp e h
    simp [errorJSON, h]

/-- C7 witness: the override hypothesis and default hypothesis
discharged at concrete errors. -/
theorem json_projection_witness :
    errorJSON (fun n _ => JsonVal.custom n)
        (({ toJSON := some 3 } : EData), none) = JsonVal.custom 3 ∧
    errorJSON (fun n _ => JsonVal.custom n) (({} : EData), none) =
      .obj (WhatKind (some (XError.toErr (({} : EData), none)))).code
        (WhatKind (some (XError.toErr (({} : EData), none)))).string
        (UserMsg (some (XError.toErr (({} : EData), none)))) :=
  ⟨json_projection.1 (fun n _ => JsonVal.custom n)
      (({ toJSON := some 3 } : EData), none) 3 rfl,
   json_projection.2.1 (fun n _ => JsonVal.custom n) (({} : EData), none) rfl⟩

/-- C8.  Internal text never leaks: `UserMsg` only ever returns one of
the chain's `UserMsg` fields (or the empty string), and the chain-walked
kind, user message, and default JSON projection are identical for any two
error chains that differ only in the internal `Text` fields. -/
theorem text_never_leaks :
    (∀ a b : GoError, sameExceptText a b = true →
      a.whatKind = b.whatKind ∧ a.userMsg = b.userMsg) ∧
    (∀ (interp : Nat → XError → JsonVal) (d : EData) (c : Option GoError)
        (d2 : EData) (c2 : Option GoError),
      sameExceptText (.gerr d c) (.gerr d2 c2) = true → d.toJSON = none →
      errorJSON interp (d, c) = errorJSON interp (d2, c2)) ∧
    (∀ e : GoError, e.userMsg = "" ∨ e.userMsg ∈ userMsgFields e) := by
  refine ⟨fun a b h => ⟨whatKind_sameText a b h, userMsg_sameText a b h⟩,
    ?_, userMsg_from_fields⟩
  intro interp d c d2 c2 h hj
  have hj2 : d2.toJSON = none := (toJSON_sameText d c d2 c2 h) ▸ hj
  have hk := whatKind_sameText (.gerr d c) (.gerr d2 c2) h
  have hu := userMsg_sameText (.gerr d c) (.gerr d2 c2) h
  simp [errorJSON, hj, hj2, WhatKind, UserMsg, XError.toErr, hk, hu]

/-- C8 witness: two chains differing only in text, with the conclusions
evaluated at them. -/
theorem text_never_leaks_witness :
    ((GoError.gerr { op := "A", text := "s", userMsg := "hi" } none).whatKind
        = (GoError.gerr { op := "A", text := "x", userMsg := "hi" }
            none).whatKind ∧
      (GoError.gerr { op := "A", text := "s", userMsg := "hi" } none).userMsg
        = (GoError.gerr { op := "A", text := "x", userMsg := "hi" }
            none).userMsg) ∧
    errorJSON (fun n _ => JsonVal.custom n)
        ({ op := "A", text := "s", userMsg := "hi" }, none) =
      errorJSON (fun n _ => JsonVal.custom n)
        ({ op := "A", text := "x", userMsg := "hi" }, none) ∧
    ((GoError.gerr { userMsg := "hi" } none).userMsg = "" ∨
      (GoError.gerr { userMsg := "hi" } none).userMsg ∈
        userMsgFields (.gerr { userMsg := "hi" } none)) :=
  ⟨text_never_leaks.1 _ _ (by decide),
   text_never_leaks.2.1 (fun n _ => JsonVal.custom n)
     { op := "A", text := "s", userMsg := "hi" } none
     { op := "A", text := "x", userMsg := "hi" } none (by decide) rfl,
   text_never_leaks.2.2 _⟩

theorem hgetD_set_ne (σ : Heap) (p a : Nat) (r : HErr) (h : a ≠ p) :
    (σ.set p r).getD a default = σ.getD a default := by
  simp [List.getD_eq_getElem?_getD, List.getElem?_set_ne (Ne.symm h)]

theorem hgetD_append (σ τ : Heap) (a : Nat) (h : a < σ.length) :
    (σ ++ τ).getD a default = σ.getD a default := by
  simp [List.getD_eq_getElem?_getD, List.getElem?_append, h]

theorem hset_append (σ : Heap) (c x : HErr) :
    (σ ++ [c]).set σ.length x = σ ++ [x] := by
  rw [List.set_append_right _ _ (by omega)]
  simp

theorem hgetD_append_self (σ : Heap) (c : HErr) :
    (σ ++ [c]).getD σ.length default = c := by
  simp [List.getD_eq_getElem?_getD,
    List.getElem?_append_right (by omega : σ.length ≤ σ.length)]

theorem hgetD_mem (σ : Heap) (a : Nat) (h : a < σ.length) :
    σ.getD a default ∈ σ := by
  rw [List.getD_eq_getElem?_getD]
  simp [List.getElem?_eq_getElem h]

theorem visitedH_err_eq (σ : Heap) (fuel : Nat) (x y : HErr)
    (h : x.err = y.err) : visitedH σ fuel x = visitedH σ fuel y := by
  rw [visitedH, visitedH, h]

theorem visitedH_none (σ : Heap) (fuel : Nat) (e : HErr) (h : e.err = none) :
    visitedH σ fuel e = [] := by
  rw [visitedH, h]

theorem visitedH_zero (σ : Heap) (e : HErr) : visitedH σ 0 e = [] := by
  rw [visitedH]
  cases h : e.err <;> rfl

theorem visitedH_succ (σ : Heap) (n : Nat) (e : HErr) (a : Nat)
    (h : e.err = some a) :
    visitedH σ (n + 1) e = a :: visitedH σ n (σ.getD a default) := by
  rw [visitedH, h]

theorem renderRecH_noneErr (σ : Heap) (fuel : Nat) (e : HErr)
    (h : e.err = none) :
    renderRecH σ fuel e =
      (if renderScalars e = "" then "no error" else renderScalars e) := by
  rw [renderRecH, h]
  rfl

theorem renderRecH_zero (σ : Heap) (e : HErr) (a : Nat) (h : e.err = some a) :
    renderRecH σ 0 e =
      (if renderScalars e = "" then "no error" else renderScalars e) := by
  rw [renderRecH, h]
  rfl

theorem renderRecH_succ (σ : Heap) (n : Nat) (e : HErr) (a : Nat)
    (h : e.err = some a) :
    renderRecH σ (n + 1) e =
      (if writePaddedStr (renderScalars e)
          (renderRecH σ n (σ.getD a default)) = "" then "no error"
       else writePaddedStr (renderScalars e)
          (renderRecH σ n (σ.getD a default))) := by
  rw [renderRecH, h]
  rfl

theorem visitedH_set (σ : Heap) (r : HErr) (p : Nat) :
    ∀ (fuel : Nat) (e : HErr), p ∉ visitedH σ fuel e →
      visitedH (σ.set p r) fuel e = visitedH σ fuel e := by
  intro fuel
  induction fuel with
  | zero => intro e _; rw [visitedH_zero, visitedH_zero]
  | succ n ih =>
    intro e h
    cases he : e.err with
    | none => rw [visitedH_none _ _ _ he, visitedH_none _ _ _ he]
    | some a =>
      rw [visitedH_succ _ _ _ _ he] at h
      have hap : a ≠ p := by
        rintro rfl
        exact h (List.mem_cons_self _ _)
      have htail : p ∉ visitedH σ n (σ.getD a default) :=
        fun hm => h (List.mem_cons_of_mem _ hm)
      rw [visitedH_succ (σ.set p r) n e a he, visitedH_succ σ n e a he,
        hgetD_set_ne σ p a r hap, ih _ htail]

theorem renderRecH_set (σ : Heap) (r : HErr) (p : Nat) :
    ∀ (fuel : Nat) (e : HErr), p ∉ visitedH σ fuel e →
      renderRecH (σ.set p r) fuel e = renderRecH σ fuel e := by
  intro fuel
  induction fuel with
  | zero =>
    intro e _
    cases he : e.err with
    | none => rw [renderRecH_noneErr _ _ _ he, renderRecH_noneErr _ _ _ he]
    | some a => rw [renderRecH_zero _ _ _ he, renderRecH_zero _ _ _ he]
  | succ n ih =>
    intro e h
    cases he : e.err with
    | none => rw [renderRecH_noneErr _ _ _ he, renderRecH_noneErr _ _ _ he]
    | some a =>
      rw [visitedH_succ _ _ _ _ he] at h
      have hap : a ≠ p := by
        rintro rfl
        exact h (List.mem_cons_self _ _)
      have htail : p ∉ visitedH σ n (σ.getD a default) :=
        fun hm => h (List.mem_cons_of_mem _ hm)
      rw [renderRecH_succ (σ.set p r) n e a he, renderRecH_succ σ n e a he,
        hgetD_set_ne σ p a r hap, ih _ htail]

theorem visitedH_append (σ τ : Heap) (hcl : heapClosed σ) :
    ∀ (fuel : Nat) (x : HErr), (∀ a, x.err = some a → a < σ.length) →
      visitedH (σ ++ τ) fuel x = visitedH σ fuel x ∧
        ∀ a ∈ visitedH σ fuel x, a < σ.length := by
  intro fuel
  induction fuel with
  | zero =>
    intro x _
    refine ⟨by rw [visitedH_zero, visitedH_zero], ?_⟩
    simp [visitedH_zero]
  | succ n ih =>
    intro x hx
    cases he : x.err with
    | none =>
      refine ⟨by rw [visitedH_none _ _ _ he, visitedH_none _ _ _ he], ?_⟩
      simp [visitedH_none _ _ _ he]
    | some a =>
      have ha : a < σ.length := hx a he
      have hmem := hgetD_mem σ a ha
      have hnext : ∀ b, (σ.getD a default).err = some b → b < σ.length :=
        fun b hb => hcl _ hmem b hb
      obtain ⟨ih1, ih2⟩ := ih (σ.getD a default) hnext
      constructor
      · rw [visitedH_succ _ _ _ _ he, visitedH_succ _ _ _ _ he,
          hgetD_append σ τ a ha, ih1]
      · intro b hb
        rw [visitedH_succ _ _ _ _ he] at hb
        rcases List.mem_cons.mp hb with rfl | hb2
        · exact ha
        · exact ih2 _ hb2

theorem promoteFieldsH_shape (σ : Heap) (cp : HErr) (d0 : EData) :
    ∃ pr w : HErr,
      promoteFieldsH (σ ++ [cp]) { d := d0, err := some σ.length } =
        (σ ++ [pr], w) ∧ pr.err = cp.err ∧
      (w.err = none ∨ w.err = some σ.length ∨ w.err = cp.err) := by
  simp only [promoteFieldsH]
  rw [hgetD_append_self]
  split_ifs with g1 g2 g3
  · exact ⟨⟨(pullUp d0 (suppressDup d0 cp.d)).2, cp.err⟩,
      ⟨(pullUp d0 (suppressDup d0 cp.d)).1, some σ.length⟩,
      by rw [hset_append], rfl, Or.inr (Or.inl rfl)⟩
  · exact ⟨⟨(pullText (pullUp d0 (suppressDup d0 cp.d)).1
        (pullUp d0 (suppressDup d0 cp.d)).2).2, cp.err⟩,
      ⟨(pullText (pullUp d0 (suppressDup d0 cp.d)).1
        (pullUp d0 (suppressDup d0 cp.d)).2).1, none⟩,
      by rw [hset_append], rfl, Or.inl rfl⟩
  · exact ⟨⟨(pullText (pullUp d0 (suppressDup d0 cp.d)).1
        (pullUp d0 (suppressDup d0 cp.d)).2).2, cp.err⟩,
      ⟨(pullText (pullUp d0 (suppressDup d0 cp.d)).1
        (pullUp d0 (suppressDup d0 cp.d)).2).1, cp.err⟩,
      by rw [hset_append], rfl, Or.inr (Or.inr rfl)⟩
  · exact ⟨⟨(pullText (pullUp d0 (suppressDup d0 cp.d)).1
        (pullUp d0 (suppressDup d0 cp.d)).2).2, cp.err⟩,
      ⟨(pullText (pullUp d0 (suppressDup d0 cp.d)).1
        (pullUp d0 (suppressDup d0 cp.d)).2).1, some σ.length⟩,
      by rw [hset_append], rfl, Or.inr (Or.inl rfl)⟩

theorem EH_shape (σ : Heap) (d0 : EData) (p : Nat) :
    ∃ pr w : HErr,
      EH d0 p σ = (σ ++ [pr] ++ [w], σ.length + 1) ∧
      pr.err = (σ.getD p default).err ∧
      (w.err = none ∨ w.err = some σ.length ∨
        w.err = (σ.getD p default).err) := by
  obtain ⟨pr, w, heq, hpr, hw⟩ := promoteFieldsH_shape σ (σ.getD p default) d0
  refine ⟨pr, w, ?_, hpr, hw⟩
  simp only [EH, withErrH]
  rw [heq]
  simp

/-- C9.  Defensive copy of wrapped causes, in the pointer-level model:
constructing `E(..., WithErr(err))` over a well-formed heap (valid,
non-self-reaching cause pointers) (1) leaves every pre-existing record
untouched — promotion mutates only the freshly allocated copy, (2) never
stores the caller's original reference as the result's cause, and (3)
mutating the record the caller passed in afterwards does not change the
wrapper's rendering. -/
theorem defensive_copy (σ : Heap) (d0 : EData) (p : Nat)
    (hp : p < σ.length) (hcl : heapClosed σ)
    (hacyc : ∀ fuel, p ∉ visitedH σ fuel (σ.getD p default)) :
    (∀ a, a < σ.length → (EH d0 p σ).1.getD a default = σ.getD a default) ∧
    ((EH d0 p σ).1.getD (EH d0 p σ).2 default).err ≠ some p ∧
    (∀ (r : HErr) (fuel : Nat),
      renderPtrH ((EH d0 p σ).1.set p r) fuel (EH d0 p σ).2 =
        renderPtrH (EH d0 p σ).1 fuel (EH d0 p σ).2) := by
  obtain ⟨pr, w, hEH, hpr, hw⟩ := EH_shape σ d0 p
  have hcpn : (σ.getD p default).err ≠ some p := by
    intro hcp
    have h1 := hacyc 1
    rw [visitedH_succ σ 0 _ p hcp, visitedH_zero] at h1
    exact h1 (List.mem_cons_self _ _)
  have hcpbound : ∀ a, (σ.getD p default).err = some a → a < σ.length :=
    fun a ha => hcl _ (hgetD_mem σ p hp) a ha
  have haw : (σ ++ [pr] ++ [w]).getD (σ.length + 1) default = w := by
    have hl : (σ ++ [pr]).length = σ.length + 1 := by simp
    rw [← hl, hgetD_append_self]
  have hvac : ∀ x : HErr, x.err = (σ.getD p default).err →
      ∀ fuel, p ∉ visitedH (σ ++ [pr] ++ [w]) fuel x := by
    intro x hx fuel
    have hxb : ∀ a, x.err = some a → a < σ.length := by
      intro a ha
      exact hcpbound a (hx ▸ ha)
    rw [List.append_assoc]
    obtain ⟨ha1, -⟩ := visitedH_append σ ([pr] ++ [w]) hcl fuel x hxb
    rw [ha1, visitedH_err_eq σ fuel x (σ.getD p default) hx]
    exact hacyc fuel
  have hwvis : ∀ fuel, p ∉ visitedH (σ ++ [pr] ++ [w]) fuel w := by
    intro fuel
    rcases hw with hwn | hwc | hwo
    · rw [visitedH_none _ _ _ hwn]
      simp
    · cases fuel with
      | zero => rw [visitedH_zero]; simp
      | succ n =>
        rw [visitedH_succ _ _ _ _ hwc]
        intro hmem
        rcases List.mem_cons.mp hmem with hpe | htail
        · omega
        · have hgl : (σ ++ [pr] ++ [w]).getD σ.length default = pr := by
            rw [hgetD_append (σ ++ [pr]) [w] σ.length (by simp),
              hgetD_append_self]
          rw [hgl] at htail
          exact hvac pr hpr n htail
    · exact hvac w hwo fuel
  refine ⟨?_, ?_, ?_⟩
  · intro a ha
    rw [hEH]
    show (σ ++ [pr] ++ [w]).getD a default = σ.getD a default
    rw [List.append_assoc, hgetD_append σ _ a ha]
  · rw [hEH]
    show ((σ ++ [pr] ++ [w]).getD (σ.length + 1) default).err ≠ some p
    rw [haw]
    rcases hw with hwn | hwc | hwo
    · rw [hwn]; simp
    · rw [hwc]
      intro hcontra
      have := Option.some.inj hcontra
      omega
    · rw [hwo]; exact hcpn
  · intro r fuel
    rw [hEH]
    show renderPtrH ((σ ++ [pr] ++ [w]).set p r) fuel (σ.length + 1) =
      renderPtrH (σ ++ [pr] ++ [w]) fuel (σ.length + 1)
    simp only [renderPtrH]
    rw [hgetD_set_ne _ p (σ.length + 1) r (by omega), haw]
    exact renderRecH_set _ r p fuel w (hwvis fuel)

/-- C9 witness: a one-record heap holding `{op := "B", text := "t"}`;
wrapping it and then overwriting the original record leaves the
wrapper's rendering unchanged. -/
theorem defensive_copy_witness :
    (EH { op := "A" } 0 ([⟨{ op := "B", text := "t" }, none⟩] : Heap)).1.getD
        0 default =
      ([⟨{ op := "B", text := "t" }, none⟩] : Heap).getD 0 default ∧
    ((EH { op := "A" } 0
        ([⟨{ op := "B", text := "t" }, none⟩] : Heap)).1.getD
      (EH { op := "A" } 0
        ([⟨{ op := "B", text := "t" }, none⟩] : Heap)).2 default).err ≠
      some 0 ∧
    renderPtrH
        ((EH { op := "A" } 0
          ([⟨{ op := "B", text := "t" }, none⟩] : Heap)).1.set 0
          ⟨{ op := "X" }, none⟩) 5
        (EH { op := "A" } 0
          ([⟨{ op := "B", text := "t" }, none⟩] : Heap)).2 =
      renderPtrH
        (EH { op := "A" } 0
          ([⟨{ op := "B", text := "t" }, none⟩] : Heap)).1 5
        (EH { op := "A" } 0
          ([⟨{ op := "B", text := "t" }, none⟩] : Heap)).2 := by
  have h := defensive_copy ([⟨{ op := "B", text := "t" }, none⟩] : Heap)
    { op := "A" } 0 (by decide)
    (by
      intro r hr a ha
      simp only [List.mem_singleton] at hr
      subst hr
      simp at ha)
    (by
      intro fuel
      rw [visitedH_none _ _ _ rfl]
      simp)
  exact ⟨h.1 0 (by decide), h.2.1, h.2.2 ⟨{ op := "X" }, none⟩ 5⟩

end Xgo
